import Mathlib

/-!
Verification development for a karabiner.ts keyboard configuration.

The repository describes Karabiner-Elements rules declaratively; the builder
library compiles them to JSON manipulators.  We embed the JSON data model
(manipulators, to-events, conditions) and the rule-generating functions of
src/lib/builders.ts, src/lib/functions.ts and src/index.ts, together with a
small operational semantics of the variable store, the sticky-modifier state
and the spacebar key lifecycle, and prove the stated properties.
-/

/-- A Karabiner to-event, as produced by the builder helpers of the upstream
karabiner.ts library used by this configuration: toKey gives a key_code event
(with optional halt and repeat flags), toSetVar a set_variable event, cmd in
src/lib/builders.ts a shell_command event, and toStickyModifier a
sticky_modifier event. -/
inductive ToEvent where
  | key (code : String) (mods : List String) (halt : Bool) (repeating : Bool)
  | setVar (name : String) (value : Int)
  | shell (command : String)
  | stickyMod (modifier : String) (state : String)
deriving DecidableEq, Repr, Inhabited

/-- A Karabiner condition: variable_if / variable_unless (from ifVar and
ifVar(..).unless()) and frontmost_application_if / _unless (from ifApp and
ifApp(..).unless()). -/
inductive Cond where
  | varIf (name : String) (value : Int)
  | varUnless (name : String) (value : Int)
  | appIf (matcher : String)
  | appUnless (matcher : String)
deriving DecidableEq, Repr

/-- The to_delayed_action branch of a basic manipulator. -/
structure DelayedAction where
  to_if_invoked : List ToEvent
  to_if_canceled : List ToEvent
deriving DecidableEq, Repr

/-- A Karabiner basic manipulator, the JSON object emitted by
map(...).build() of the upstream library: from-key (with optional modifiers),
conditions, the to / to_if_alone / to_if_held_down / to_after_key_up event
lists, an optional to_delayed_action branch, and the timing parameters. -/
structure Manipulator where
  fromKey : String
  fromMandatoryMods : List String := []
  fromOptionalMods : List String := []
  conditions : List Cond := []
  toEvents : List ToEvent := []
  to_if_alone : List ToEvent := []
  to_if_held_down : List ToEvent := []
  to_after_key_up : List ToEvent := []
  delayedAction : Option DelayedAction := none
  aloneTimeoutMs : Option Nat := none
  heldThresholdMs : Option Nat := none
  delayedActionDelayMs : Option Nat := none
  descr : Option String := none
deriving DecidableEq, Repr, Inhabited

/-- A named Karabiner rule: rule(desc).manipulators(ms) of the upstream
library. -/
structure KRule where
  descr : String
  manipulators : List Manipulator
deriving DecidableEq, Repr, Inhabited

/-- toKey helper of the upstream library: a plain key press event. -/
def toKey (code : String) (mods : List String := []) (halt : Bool := false)
    (repeating : Bool := true) : ToEvent :=
  ToEvent.key code mods halt repeating

/-- toSetVar helper of the upstream library: a set_variable event. -/
def toSetVar (name : String) (value : Int) : ToEvent :=
  ToEvent.setVar name value

/-- toStickyModifier helper of the upstream library. -/
def toStickyModifier (modifier : String) (state : String) : ToEvent :=
  ToEvent.stickyMod modifier state

/-- cmd from src/lib/builders.ts: wraps a shell command string as a
shell_command ToEvent. -/
def cmd (shell : String) : ToEvent :=
  ToEvent.shell shell

/-- The left-hand modifier constants L of src/lib/mods.ts. -/
def Lcmd : String := "left_command"

/-- L.opt of src/lib/mods.ts. -/
def Lopt : String := "left_option"

/-- L.ctrl of src/lib/mods.ts. -/
def Lctrl : String := "left_control"

/-- L.shift of src/lib/mods.ts. -/
def Lshift : String := "left_shift"

/-- An app-specific override entry of the appOverrides option of tapHold in
src/lib/builders.ts. -/
structure AppOverride where
  app : String
  unlessApp : Bool := false
  alone : Option (List ToEvent) := none
  hold : Option (List ToEvent) := none
  timeoutMs : Option Nat := none
  thresholdMs : Option Nat := none
  cancel : Option (List ToEvent) := none
  invoked : Option (List ToEvent) := none
deriving DecidableEq, Repr, Inhabited

/-- The TapHoldOpts argument of tapHold in src/lib/builders.ts.  Option
distinguishes an absent (undefined) field from a present empty list, as the
TypeScript nullish-coalescing chain does. -/
structure TapHoldOpts where
  key : String
  alone : Option (List ToEvent) := none
  hold : Option (List ToEvent) := none
  timeoutMs : Option Nat := none
  thresholdMs : Option Nat := none
  cancel : Option (List ToEvent) := none
  invoked : Option (List ToEvent) := none
  appOverrides : List AppOverride := []
deriving DecidableEq, Repr, Inhabited

/-- The per-builder options of the local makeBuilder closure inside tapHold
in src/lib/builders.ts. -/
structure MakeBuilderOpts where
  alone : Option (List ToEvent) := none
  hold : Option (List ToEvent) := none
  timeoutMs : Option Nat := none
  thresholdMs : Option Nat := none
  cancel : Option (List ToEvent) := none
  invoked : Option (List ToEvent) := none
  cond : Option Cond := none
deriving DecidableEq, Repr, Inhabited

/-- The nullish-coalescing chain a ?? b ?? c ?? [] used for the
cancel-events fallback in makeBuilder. -/
def coalesce3 (a b c : Option (List ToEvent)) : List ToEvent :=
  match a with
  | some x => x
  | none =>
    match b with
    | some x => x
    | none => c.getD []

/-- makeBuilder inside tapHold of src/lib/builders.ts: one basic manipulator
for the given per-builder options, closing over the key, the default timing
and the top-level cancel, invoked and alone lists exactly as the TypeScript
closure does. -/
def makeBuilder (key : String) (timeoutMs thresholdMs : Nat)
    (cancel invoked alone : Option (List ToEvent))
    (o : MakeBuilderOpts) : Manipulator :=
  { fromKey := key
    conditions := (o.cond.map (fun c => [c])).getD []
    to_if_alone := o.alone.getD []
    to_if_held_down := o.hold.getD []
    delayedAction := some
      { to_if_invoked := (o.invoked.getD (invoked.getD []))
        to_if_canceled := coalesce3 o.cancel cancel alone }
    aloneTimeoutMs := some (o.timeoutMs.getD timeoutMs)
    heldThresholdMs := some (o.thresholdMs.getD thresholdMs) }

/-- tapHold of src/lib/builders.ts: one manipulator per app override (with
its frontmost-application condition) followed by the default manipulator
with no app condition; build() flattens them in that order. -/
def tapHold (opts : TapHoldOpts) : List Manipulator :=
  let timeoutMs := opts.timeoutMs.getD 300
  let thresholdMs := opts.thresholdMs.getD 300
  let mk := makeBuilder opts.key timeoutMs thresholdMs
    opts.cancel opts.invoked opts.alone
  (opts.appOverrides.map (fun ov =>
    mk { alone := ov.alone, hold := ov.hold, timeoutMs := ov.timeoutMs,
         thresholdMs := ov.thresholdMs, cancel := ov.cancel,
         invoked := ov.invoked,
         cond := some (if ov.unlessApp then Cond.appUnless ov.app
                       else Cond.appIf ov.app) }))
  ++ [mk { alone := opts.alone, hold := opts.hold }]


/-- The VarTapTapHoldOpts argument of varTapTapHold in src/lib/builders.ts
(holdMods is declared there but never used by the function body, so it is
omitted). -/
structure VarTapTapHoldOpts where
  key : String
  firstVar : String
  aloneEvents : Option (List ToEvent) := none
  holdEvents : Option (List ToEvent) := none
  tapTapEvents : Option (List ToEvent) := none
  tapTapHoldEvents : Option (List ToEvent) := none
  thresholdMs : Nat := 300
  descr : Option String := none
deriving DecidableEq, Repr, Inhabited

/-- The secondTap manipulator of varTapTapHold: fires only while firstVar is
1 and handles tap-tap and tap-tap-hold, resetting the variable. -/
def secondTapManipulator (o : VarTapTapHoldOpts) : Manipulator :=
  { fromKey := o.key
    fromOptionalMods := ["any"]
    conditions := [Cond.varIf o.firstVar 1]
    aloneTimeoutMs := some o.thresholdMs
    heldThresholdMs := some o.thresholdMs
    descr := some (o.descr.getD (o.key ++ " tap-tap/tap-tap-hold"))
    to_if_alone := toSetVar o.firstVar 0 :: o.tapTapEvents.getD []
    to_if_held_down := toSetVar o.firstVar 0 :: o.tapTapHoldEvents.getD [] }

/-- The firstTap manipulator of varTapTapHold: unconditional, sets firstVar
to 1 and passes the key through, with a delayed action that resets the
variable on both the invoked (timeout) and canceled branches. -/
def firstTapManipulator (o : VarTapTapHoldOpts) : Manipulator :=
  { fromKey := o.key
    fromOptionalMods := ["any"]
    delayedActionDelayMs := some o.thresholdMs
    descr := some (o.descr.getD (o.key ++ " tap/tap-hold prime"))
    toEvents := [toSetVar o.firstVar 1, toKey o.key]
    delayedAction := some
      { to_if_invoked := [toSetVar o.firstVar 0]
        to_if_canceled := [toSetVar o.firstVar 0] } }

/-- The tapHandlerTap manipulator of varTapTapHold, added only when
aloneEvents or holdEvents is a non-empty list; it is unshifted to the front
of the list so that it has higher priority than secondTap. -/
def tapHandlerTapManipulator (o : VarTapTapHoldOpts) : Manipulator :=
  { fromKey := o.key
    fromOptionalMods := ["any"]
    conditions := [Cond.varIf o.firstVar 1]
    aloneTimeoutMs := some o.thresholdMs
    heldThresholdMs := some o.thresholdMs
    descr := some (o.descr.getD (o.key ++ " tap/tap-hold handler"))
    to_if_alone := o.aloneEvents.getD []
    to_if_held_down := o.holdEvents.getD [] }

/-- varTapTapHold of src/lib/builders.ts: the ordered manipulator list
[secondTap, firstTap], with tapHandlerTap unshifted to the front when alone
or hold events are supplied. -/
def varTapTapHold (o : VarTapTapHoldOpts) : List Manipulator :=
  let base := [secondTapManipulator o, firstTapManipulator o]
  if !(o.aloneEvents.getD []).isEmpty || !(o.holdEvents.getD []).isEmpty then
    tapHandlerTapManipulator o :: base
  else
    base

/-- The TapHoldConfig entry type of src/lib/functions.ts and src/index.ts. -/
structure TapHoldConfig where
  hold : List ToEvent
  descr : String
  timeoutMs : Option Nat := none
  thresholdMs : Option Nat := none
deriving DecidableEq, Repr, Inhabited

/-- The stickyModifier choice of a sublayer mapping
(shift | option | command | control). -/
inductive StickyChoice where
  | shift
  | option
  | command
  | control
deriving DecidableEq, Repr

/-- The modMap lookup of generateSpaceLayerRules in src/lib/functions.ts. -/
def stickyKeyFor : StickyChoice → String
  | StickyChoice.shift => Lshift
  | StickyChoice.option => Lopt
  | StickyChoice.command => Lcmd
  | StickyChoice.control => Lctrl

/-- One mapping inside a SubLayerConfig: open a path, run a command, toggle
a sticky modifier, or send a key (optionally passing modifiers through). -/
structure MappingConfig where
  path : Option String := none
  command : Option String := none
  keyCode : Option String := none
  stickyModifier : Option StickyChoice := none
  passModifiers : Bool := false
  descr : String
deriving DecidableEq, Repr, Inhabited

/-- A SubLayerConfig of src/lib/functions.ts and src/index.ts.  releaseLayer
is optional and defaults to true at the destructuring site. -/
structure SubLayerConfig where
  layerKey : String
  layerName : String
  releaseLayer : Option Bool := none
  mappings : List (String × MappingConfig)
deriving DecidableEq, Repr, Inhabited

/-- The sublayer variable name space_<layerKey>_sublayer. -/
def sublayerVarName (layerKey : String) : String :=
  "space_" ++ layerKey ++ "_sublayer"

/-- The space_mod variable name. -/
def spaceModVar : String := "space_mod"

/-- generateTapHoldRules of src/lib/functions.ts: builds a tapHold unit per
key and pushes onto every manipulator the variable_unless space_mod guard
followed by one variable_unless guard per registered sublayer. -/
def generateTapHoldRules (tapHoldKeys : List (String × TapHoldConfig))
    (spaceLayers : List SubLayerConfig) : List KRule :=
  let allSublayerVars := spaceLayers.map (fun l => sublayerVarName l.layerKey)
  tapHoldKeys.map (fun kc =>
    let manipulators := tapHold
      { key := kc.1
        alone := some [toKey kc.1 [] true]
        hold := some kc.2.hold
        timeoutMs := kc.2.timeoutMs
        thresholdMs := kc.2.thresholdMs }
    let manipulators := manipulators.map (fun m =>
      { m with conditions := m.conditions
          ++ Cond.varUnless spaceModVar 1
          :: allSublayerVars.map (fun v => Cond.varUnless v 1) })
    { descr := kc.1.toUpper ++ " hold -> " ++ kc.2.descr
      manipulators := manipulators })

/-- The to_if_alone event list of the spacebar manipulator: pass the space
through (halting) and zero space_mod and every sublayer variable. -/
def spaceAloneEvents (subVars : List String) : List ToEvent :=
  toKey "spacebar" [] true :: toSetVar spaceModVar 0
    :: subVars.map (fun v => toSetVar v 0)

/-- The to_after_key_up event list of the spacebar manipulator: zero
space_mod and every sublayer variable and switch the four sticky modifiers
off. -/
def spaceAfterKeyUpEvents (subVars : List String) : List ToEvent :=
  toSetVar spaceModVar 0 :: subVars.map (fun v => toSetVar v 0)
    ++ [toStickyModifier Lshift "off", toStickyModifier Lopt "off",
        toStickyModifier Lcmd "off", toStickyModifier Lctrl "off"]

/-- The to_if_canceled branch of the spacebar delayed action: emit the
spacebar and zero space_mod and every sublayer variable. -/
def spaceCanceledEvents (subVars : List String) : List ToEvent :=
  toKey "spacebar" :: toSetVar spaceModVar 0
    :: subVars.map (fun v => toSetVar v 0)

/-- The spacebar manipulator of generateSpaceLayerRules in
src/lib/functions.ts (duplicated verbatim in the space-layer section of
src/index.ts): tap passes space through, hold sets space_mod to 1, key-up
zeroes everything and clears the sticky modifiers. -/
def spaceManipulator (subVars : List String) : Manipulator :=
  { fromKey := "spacebar"
    to_if_alone := spaceAloneEvents subVars
    to_if_held_down := [toSetVar spaceModVar 1]
    to_after_key_up := spaceAfterKeyUpEvents subVars
    delayedAction := some
      { to_if_invoked := []
        to_if_canceled := spaceCanceledEvents subVars }
    aloneTimeoutMs := some 200
    heldThresholdMs := some 200 }

/-- The sublayer activation manipulator: pressing layerKey while space_mod
is 1 sets the sublayer variable to 1 and space_mod to 0 in one to-list. -/
def sublayerActivationManipulator (layerKey : String) : Manipulator :=
  { fromKey := layerKey
    conditions := [Cond.varIf spaceModVar 1]
    toEvents := [toSetVar (sublayerVarName layerKey) 1,
                 toSetVar spaceModVar 0] }

/-- The core action events of one sublayer mapping, following the if-else
chain of generateSpaceLayerRules: path, then command, then stickyModifier,
then key. -/
def mappingCoreEvents (cfg : MappingConfig) : List ToEvent :=
  match cfg.path with
  | some p => [cmd ("open \x27" ++ p ++ "\x27")]
  | none =>
    match cfg.command with
    | some c => [cmd c]
    | none =>
      match cfg.stickyModifier with
      | some m => [toStickyModifier (stickyKeyFor m) "toggle"]
      | none =>
        match cfg.keyCode with
        | some k =>
          if cfg.passModifiers then [toKey k ["any"]] else [toKey k]
        | none => []

/-- The full event list of one sublayer mapping: the core events, then the
sublayer-variable reset exactly when releaseLayer is true and the mapping is
not a sticky-modifier toggle. -/
def mappingEvents (releaseLayer : Bool) (sublayerVar : String)
    (cfg : MappingConfig) : List ToEvent :=
  mappingCoreEvents cfg
    ++ (if releaseLayer && cfg.stickyModifier.isNone
        then [toSetVar sublayerVar 0] else [])

/-- One sublayer mapping manipulator: conditioned on the sublayer variable
being 1; passModifiers uses optional-any from-modifiers. -/
def mappingManipulator (sublayerVar : String) (releaseLayer : Bool)
    (k : String) (cfg : MappingConfig) : Manipulator :=
  { fromKey := k
    fromOptionalMods := if cfg.passModifiers then ["any"] else []
    conditions := [Cond.varIf sublayerVar 1]
    toEvents := mappingEvents releaseLayer sublayerVar cfg }

/-- generateSpaceLayerRules of src/lib/functions.ts (duplicated verbatim in
src/index.ts): the spacebar rule followed by one rule per sublayer holding
the activation manipulator and all mapping manipulators. -/
def generateSpaceLayerRules (spaceLayers : List SubLayerConfig) :
    List KRule :=
  let allSublayerVars := spaceLayers.map (fun l => sublayerVarName l.layerKey)
  { descr := "SPACE - tap for space, hold for layer"
    manipulators := [spaceManipulator allSublayerVars] }
  :: spaceLayers.map (fun l =>
    let sublayerVar := sublayerVarName l.layerKey
    let rel := l.releaseLayer.getD true
    { descr := "SPACE+" ++ l.layerKey.toUpper ++ " - "
        ++ l.layerName ++ " layer"
      manipulators := sublayerActivationManipulator l.layerKey
        :: l.mappings.map (fun kc => mappingManipulator sublayerVar rel kc.1 kc.2) })

/-- The static extra variables cleared by the escape rule. -/
def escapeOtherVars : List String :=
  ["caps_lock_pressed", "command_q_pressed", "ctrl_opt_esc_first",
   "cmd_d_ready"]

/-- The single to-list of the escape manipulator: emit escape, zero
space_mod, every sublayer variable and the static variables, and switch the
four sticky modifiers off. -/
def escapeToEvents (subVars : List String) : List ToEvent :=
  toKey "escape" :: toSetVar spaceModVar 0
    :: (subVars.map (fun v => toSetVar v 0)
        ++ escapeOtherVars.map (fun v => toSetVar v 0)
        ++ [toStickyModifier Lshift "off", toStickyModifier Lopt "off",
            toStickyModifier Lcmd "off", toStickyModifier Lctrl "off"])

/-- The escape manipulator: unconditional, from the escape key. -/
def escapeManipulator (subVars : List String) : Manipulator :=
  { fromKey := "escape"
    toEvents := escapeToEvents subVars }

/-- generateEscapeRule of src/lib/functions.ts (duplicated verbatim in
src/index.ts): one rule with the single escape manipulator. -/
def generateEscapeRule (spaceLayers : List SubLayerConfig) : List KRule :=
  [{ descr := "ESCAPE - reset all variables"
     manipulators :=
       [escapeManipulator (spaceLayers.map (fun l => sublayerVarName l.layerKey))] }]

/-- HYPER of src/lib/mods.ts. -/
def HYPER : List String := ["command", "option", "control"]

/-- SUPER of src/lib/mods.ts. -/
def SUPER : List String := ["command", "option", "control", "shift"]

/-- The tapHoldKeys record of src/index.ts, in Object.entries iteration
order (the integer-like key 8 enumerates first, then the string keys in
insertion order).  Shell strings write apostrophes as \x27 and braces as
\x7b, \x7d. -/
def indexTapHoldKeys : List (String × TapHoldConfig) :=
  [("8", { hold := [cmd "open -b com.electron.8x8---virtual-office"]
           descr := "run/open 8x8" }),
   ("a", { hold := [toKey "a" SUPER false false]
           descr := "RaycastAI hotkey" }),
   ("d", { hold := [toKey "left_arrow" ["option", "shift"],
                    toKey "x" ["command"],
                    cmd "python3 ~/Scripts/Text_Manipulation/text_processor/interfaces/cli.py quick_date --source clipboard --dest paste"]
           descr := "Quick format date" }),
   ("f", { hold := [toKey "f17" HYPER false false]
           descr := "search with ProFind" }),
   ("g", { hold := [cmd "open -b com.openai.chat"]
           descr := "ChatGPT" }),
   ("h", { hold := [cmd "/opt/homebrew/bin/hs -c \x27hs.openConsole()\x27"]
           descr := "Hammerspoon console" }),
   ("i", { hold := [cmd "/opt/homebrew/bin/hs -c \x27local ev=require(\"hs.eventtap\"); local t=require(\"hs.timer\"); ev.keyStroke(\x7b\x7d, \"home\"); t.usleep(120000); ev.keyStroke(\x7b\x7d, \"tab\"); t.usleep(120000); ev.keyStroke(\x7b\x7d, \"end\")\x27"]
           descr := "indent line" }),
   ("m", { hold := [toKey "f20" SUPER false false]
           descr := "unminimize via 1Piece" }),
   ("q", { hold := [cmd "open -a \x27/System/Volumes/Data/Applications/QSpace Pro.app\x27"]
           descr := "QSpace Pro" }),
   ("r", { hold := [cmd "latest=$(ls -t \"$HOME/Downloads\" | head -n1); [ -n \"$latest\" ] && open -R \"$HOME/Downloads/$latest\""]
           descr := "latest Download" }),
   ("s", { hold := [toKey "s" SUPER false false]
           descr := "RaycastAI hotkey" }),
   ("t", { hold := [cmd "osascript ~/Scripts/Application_Specific/iterm2/iterm2_openHere.applescript"]
           descr := "iTerm2", timeoutMs := some 300, thresholdMs := some 300 }),
   ("v", { hold := [toKey "grave_accent_and_tilde" ["control"] true false]
           descr := "Maccy", timeoutMs := some 300, thresholdMs := some 300 }),
   ("w", { hold := [toKey "w" ["command", "shift"] false false]
           descr := "Writing Tools" }),
   ("slash", { hold := [toKey "f17" HYPER false false]
               descr := "search for files" }),
   ("tab", { hold := [toKey "mission_control" [] true true]
             descr := "Mission Control"
             timeoutMs := some 300, thresholdMs := some 300 })]

/-- The Applications layer of the spaceLayers array of src/index.ts
(mapping records in Object.entries order: integer-like keys first). -/
def layerApplications : SubLayerConfig :=
  { layerKey := "a", layerName := "Applications"
    mappings :=
       [("8", { command := some "open -b com.electron.8x8---virtual-office", descr := "8x8" }),
        ("c", { command := some "open -b com.openai.chat", descr := "ChatGPT" }),
        ("d", { command := some "open -a \x27/System/Volumes/Data/Applications/Dia.app\x27", descr := "Dia" }),
        ("f", { command := some "open -a \x27/System/Volumes/Data/Applications/QSpace Pro.app\x27", descr := "QSpace Pro" }),
        ("m", { command := some "open -a \"Messages\"", descr := "Messages" }),
        ("o", { command := some "open -a \"Microsoft Outlook\"", descr := "Microsoft Outlook" }),
        ("q", { command := some "open -a \x27/System/Volumes/Data/Applications/QSpace Pro.app\x27", descr := "QSpace Pro" }),
        ("s", { command := some "open -a Safari", descr := "Safari" }),
        ("t", { command := some "open -a \"Microsoft Teams\"", descr := "Microsoft Teams" }),
        ("v", { command := some "open -a \"Visual Studio Code - Insiders\"", descr := "VS Code Insiders" }),
        ("w", { command := some "open -a \"Microsoft Word\"", descr := "Microsoft Word" })] }

/-- The sticky Cursor layer of src/index.ts. -/
def layerCursor : SubLayerConfig :=
  { layerKey := "c", layerName := "Cursor"
    releaseLayer := some false
    mappings :=
       [("j", { keyCode := some "left_arrow", passModifiers := true, descr := "Left" }),
        ("k", { keyCode := some "down_arrow", passModifiers := true, descr := "Down" }),
        ("i", { keyCode := some "up_arrow", passModifiers := true, descr := "Up" }),
        ("l", { keyCode := some "right_arrow", passModifiers := true, descr := "Right" }),
        ("u", { keyCode := some "home", passModifiers := true, descr := "Home" }),
        ("o", { keyCode := some "end", passModifiers := true, descr := "End" }),
        ("p", { keyCode := some "page_up", passModifiers := true, descr := "Page Up" }),
        (";", { keyCode := some "page_down", passModifiers := true, descr := "Page Down" })] }

/-- The Downloads layer of src/index.ts. -/
def layerDownloads : SubLayerConfig :=
  { layerKey := "d", layerName := "Downloads"
    mappings :=
       [("3", { path := some "/Users/jason/Downloads/3dPrinting", descr := "3dPrinting" }),
        ("p", { path := some "/Users/jason/Downloads/PDFs", descr := "PDFs" }),
        ("a", { path := some "/Users/jason/Downloads/Archives", descr := "Archives" }),
        ("o", { path := some "/Users/jason/Downloads/Office", descr := "Office" }),
        ("i", { path := some "/Users/jason/Downloads/Installs", descr := "Installs" })] }

/-- The Folders layer of src/index.ts. -/
def layerFolders : SubLayerConfig :=
  { layerKey := "f", layerName := "Folders"
    mappings :=
       [("\x60", { path := some "/Users/jason/", descr := "Home" }),
        ("s", { path := some "/Users/jason/Scripts", descr := "Scripts" }),
        ("a", { path := some "/Users/jason/Applications", descr := "Applications" }),
        ("d", { path := some "/Users/jason/Downloads", descr := "Downloads" }),
        ("p", { path := some "/Users/jason/Library/CloudStorage/ProtonDrive-jason.j.knox@pm.me-folder", descr := "Proton Drive" }),
        ("v", { path := some "/Users/jason/Videos", descr := "Videos" }),
        ("w", { path := some "/Users/jason/Library/CloudStorage/OneDrive-BoxerandGerson,LLP", descr := "Work OneDrive" }),
        ("o", { path := some "/Users/jason/Library/CloudStorage/OneDrive-Personal", descr := "Personal OneDrive" })] }

/-- The screenshots layer of src/index.ts. -/
def layerScreenshots : SubLayerConfig :=
  { layerKey := "s", layerName := "screenshots"
    mappings :=
       [("o", { command := some "open \"cleanshot://capture-text?linebreaks=false\"", descr := "OCR" }),
        ("a", { command := some "open \"cleanshot://capture-area\"", descr := "Capture Area" }),
        ("w", { command := some "open \"cleanshot://capture-window\"", descr := "Capture Window" }),
        ("s", { command := some "open \"cleanshot://capture-fullscreen\"", descr := "Capture Screen" }),
        ("r", { command := some "open \"cleanshot://record-screen\"", descr := "Record Screen" })] }

/-- The spaceLayers array of src/index.ts. -/
def indexSpaceLayers : List SubLayerConfig :=
  [layerApplications, layerCursor, layerDownloads, layerFolders,
   layerScreenshots]

/-- The tapHoldRules constant of src/index.ts lines 262-297; the body there
duplicates generateTapHoldRules of src/lib/functions.ts character for
character at the file-level tapHoldKeys and spaceLayers. -/
def tapHoldRules : List KRule :=
  generateTapHoldRules indexTapHoldKeys indexSpaceLayers

/-- The space-layer rules built inline in src/index.ts lines 364-469; the
body duplicates generateSpaceLayerRules of src/lib/functions.ts at the
file-level spaceLayers. -/
def indexSpaceLayerRules : List KRule :=
  generateSpaceLayerRules indexSpaceLayers

/-- The escape rule built inline in src/index.ts lines 589-619; the body
duplicates generateEscapeRule of src/lib/functions.ts at the file-level
spaceLayers. -/
def indexEscapeRules : List KRule :=
  generateEscapeRule indexSpaceLayers

/-- The runtime state the rules act on: the persisted integer variable
store (absence is 0), the sticky-modifier flags, and the physical spacebar
lifecycle (key down, and whether to_if_held_down already fired for the
current press; the engine fires it at most once per press). -/
structure KState where
  vars : String → Int
  sticky : String → Bool
  spaceDown : Bool
  heldFired : Bool

/-- One to-event acting on the state: set_variable writes the store,
sticky_modifier updates a flag (on / off / toggle); key and shell events
emit output but do not change the persisted state. -/
def applyEvent (s : KState) (e : ToEvent) : KState :=
  match e with
  | ToEvent.setVar n v =>
    { s with vars := fun x => if x = n then v else s.vars x }
  | ToEvent.stickyMod m st =>
    if st = "on" then
      { s with sticky := fun x => if x = m then true else s.sticky x }
    else if st = "off" then
      { s with sticky := fun x => if x = m then false else s.sticky x }
    else if st = "toggle" then
      { s with sticky := fun x => if x = m then !(s.sticky x) else s.sticky x }
    else s
  | _ => s

/-- An action list runs atomically as one step, in order. -/
def applyEvents (es : List ToEvent) (s : KState) : KState :=
  es.foldl applyEvent s

/-- The initial all-zero state: no variables set, no sticky modifiers, the
spacebar up. -/
def initState : KState :=
  { vars := fun _ => 0, sticky := fun _ => false,
    spaceDown := false, heldFired := false }

/-- An environment for evaluating conditions: the variable store and the
foreground-application test. -/
structure CondEnv where
  vars : String → Int
  appMatch : String → Bool

/-- Karabiner condition evaluation. -/
def condHolds (env : CondEnv) : Cond → Bool
  | Cond.varIf n v => env.vars n == v
  | Cond.varUnless n v => !(env.vars n == v)
  | Cond.appIf m => env.appMatch m
  | Cond.appUnless m => !(env.appMatch m)

/-- A manipulator is applicable when all its conditions hold (conjunctive
guard list). -/
def manipulatorApplicable (env : CondEnv) (m : Manipulator) : Bool :=
  m.conditions.all (condHolds env)

/-- Karabiner dispatch among the manipulators that capture one key: the
first applicable manipulator in list order wins. -/
def selectManipulator (env : CondEnv) (ms : List Manipulator) :
    Option Manipulator :=
  ms.find? (manipulatorApplicable env)

/-- The events a lone tap of the captured key emits: the to events on
key-down, to_if_alone on key-up before the timeout, and the delayed-action
invoked branch once the delay passes with no intervening event.  A key that
no manipulator captures emits itself; a manipulator with no to events
therefore suppresses the key (the pattern src/index.ts itself uses in its
DISABLE rules, whose comment reads: empty to events = disabled). -/
def tapEmits (m : Manipulator) : List ToEvent :=
  m.toEvents ++ m.to_if_alone
    ++ (m.delayedAction.map DelayedAction.to_if_invoked).getD []

/-- The events a hold past the threshold emits: the to events on key-down
and to_if_held_down at the threshold. -/
def holdEmits (m : Manipulator) : List ToEvent :=
  m.toEvents ++ m.to_if_held_down

/-- A tap of a key that no manipulator captures: the key itself. -/
def passThroughTapEmits (k : String) : List ToEvent :=
  [toKey k]

/-- The sublayer variable names of a layer list. -/
def subVarNames (layers : List SubLayerConfig) : List String :=
  layers.map (fun l => sublayerVarName l.layerKey)

/-- All variables of the Sublayer Activation Network: space_mod and one
sublayer variable per registered layer. -/
def layerVarNames (layers : List SubLayerConfig) : List String :=
  spaceModVar :: subVarNames layers

/-- The transition relation of the Sublayer Activation Network, one step
per dispatched action list of the generated manipulators: the spacebar
press / held / release lifecycle (to_if_held_down fires at most once per
press, to_after_key_up on every release, to_if_alone together with
to_after_key_up on a quick release, to_if_canceled when another key
arrives before the delay), sublayer activation (guarded by space_mod = 1
at dispatch time), sublayer mappings (guarded by the sublayer variable),
the escape reset, and any foreign action list that writes no layer
variable (all remaining rules of the profile). -/
inductive SpaceStep (layers : List SubLayerConfig) : KState → KState → Prop where
  | press (s : KState) (h : s.spaceDown = false) :
      SpaceStep layers s { s with spaceDown := true, heldFired := false }
  | held (s : KState) (h1 : s.spaceDown = true) (h2 : s.heldFired = false) :
      SpaceStep layers s
        { applyEvents (spaceManipulator (subVarNames layers)).to_if_held_down s
          with heldFired := true }
  | release (s : KState) (h : s.spaceDown = true) :
      SpaceStep layers s
        { applyEvents (spaceManipulator (subVarNames layers)).to_after_key_up s
          with spaceDown := false }
  | releaseAlone (s : KState) (h : s.spaceDown = true) :
      SpaceStep layers s
        { applyEvents ((spaceManipulator (subVarNames layers)).to_if_alone
            ++ (spaceManipulator (subVarNames layers)).to_after_key_up) s
          with spaceDown := false }
  | delayedCanceled (s : KState) :
      SpaceStep layers s (applyEvents (spaceCanceledEvents (subVarNames layers)) s)
  | activate (s : KState) (l : SubLayerConfig) (hl : l ∈ layers)
      (hv : s.vars spaceModVar = 1) :
      SpaceStep layers s
        (applyEvents (sublayerActivationManipulator l.layerKey).toEvents s)
  | mapAction (s : KState) (l : SubLayerConfig) (k : String)
      (cfg : MappingConfig) (hl : l ∈ layers) (hm : (k, cfg) ∈ l.mappings)
      (hv : s.vars (sublayerVarName l.layerKey) = 1) :
      SpaceStep layers s
        (applyEvents
          (mappingEvents (l.releaseLayer.getD true)
            (sublayerVarName l.layerKey) cfg) s)
  | escapeKey (s : KState) :
      SpaceStep layers s
        (applyEvents (escapeToEvents (subVarNames layers)) s)
  | foreign (s : KState) (es : List ToEvent)
      (hes : ∀ n v, ToEvent.setVar n v ∈ es → n ∉ layerVarNames layers) :
      SpaceStep layers s (applyEvents es s)

/-- A state reachable from the all-zero initial state. -/
def ReachableSpace (layers : List SubLayerConfig) (s : KState) : Prop :=
  Relation.ReflTransGen (SpaceStep layers) initState s

/-- At most one variable of the Sublayer Activation Network equals 1. -/
def activeAtMostOne (layers : List SubLayerConfig) (s : KState) : Prop :=
  ∀ a ∈ layerVarNames layers, ∀ b ∈ layerVarNames layers,
    s.vars a = 1 → s.vars b = 1 → a = b

/-- No variable of the Sublayer Activation Network equals 1. -/
def allLayerVarsInactive (layers : List SubLayerConfig) (s : KState) : Prop :=
  ∀ n ∈ layerVarNames layers, s.vars n ≠ 1

/-- The inductive invariant: mutual exclusion, and all network variables
inactive whenever the spacebar is up or its held-down branch has not fired
for the current press. -/
def SpaceInv (layers : List SubLayerConfig) (s : KState) : Prop :=
  activeAtMostOne layers s
    ∧ (s.spaceDown = false → allLayerVarsInactive layers s)
    ∧ (s.heldFired = false → allLayerVarsInactive layers s)

/-- Whether an event ends a mapping action list by resetting the given
variable to 0. -/
def endsWithReset (es : List ToEvent) (v : String) : Prop :=
  es.getLast? = some (toSetVar v 0)

/-- The app condition an appOverrides entry generates. -/
def appCondOf (ov : AppOverride) : Cond :=
  if ov.unlessApp then Cond.appUnless ov.app else Cond.appIf ov.app

/-- The override manipulator tapHold generates for one appOverrides
entry. -/
def tapHoldOverrideManip (opts : TapHoldOpts) (ov : AppOverride) : Manipulator :=
  makeBuilder opts.key (opts.timeoutMs.getD 300) (opts.thresholdMs.getD 300)
    opts.cancel opts.invoked opts.alone
    { alone := ov.alone, hold := ov.hold, timeoutMs := ov.timeoutMs,
      thresholdMs := ov.thresholdMs, cancel := ov.cancel,
      invoked := ov.invoked, cond := some (appCondOf ov) }

/-- The default manipulator tapHold generates (no app condition). -/
def tapHoldDefaultManip (opts : TapHoldOpts) : Manipulator :=
  makeBuilder opts.key (opts.timeoutMs.getD 300) (opts.thresholdMs.getD 300)
    opts.cancel opts.invoked opts.alone
    { alone := opts.alone, hold := opts.hold }

/-- The counterexample layer for the sublayer-reset claim: an auto-release
layer (releaseLayer defaulted to true) containing a sticky-modifier
mapping. -/
def c6Layer : SubLayerConfig :=
  { layerKey := "z", layerName := "Sticky demo"
    mappings := [("s", { stickyModifier := some StickyChoice.shift
                         descr := "sticky shift" })] }

/-- The degenerate tapHold options: both event lists supplied but empty. -/
def c5Opts : TapHoldOpts :=
  { key := "x", alone := some [], hold := some [] }

/-- A one-key tapHoldKeys record used to instantiate the generic guard
theorem. -/
def c1Keys : List (String × TapHoldConfig) :=
  [("x", { hold := [], descr := "demo" })]

/-- A small varTapTapHold configuration used to instantiate the generic
ordering theorems. -/
def c2Opts : VarTapTapHoldOpts :=
  { key := "y", firstVar := "y_first" }

/-- One app override used to instantiate the tapHold override theorems. -/
def c7Override : AppOverride :=
  { app := "com.example.app" }

/-- A tapHold configuration with one app override and no cancel lists. -/
def c7Opts : TapHoldOpts :=
  { key := "k", alone := some [toKey "k" [] true],
    hold := some [toKey "f17"], appOverrides := [c7Override] }

/-- An evaluation environment in which no application matcher matches. -/
def c7Env : CondEnv :=
  { vars := fun _ => 0, appMatch := fun _ => false }

/-- A fully wedged state: every variable 1, every sticky flag set, spacebar
down with its held branch fired. -/
def wedgedState : KState :=
  { vars := fun _ => 1, sticky := fun _ => true,
    spaceDown := true, heldFired := true }

theorem applyEvents_cons (e : ToEvent) (es : List ToEvent) (s : KState) :
    applyEvents (e :: es) s = applyEvents es (applyEvent s e) := rfl

theorem applyEvents_append (xs ys : List ToEvent) (s : KState) :
    applyEvents (xs ++ ys) s = applyEvents ys (applyEvents xs s) := by
  simp [applyEvents, List.foldl_append]

theorem applyEvent_spaceDown (s : KState) (e : ToEvent) :
    (applyEvent s e).spaceDown = s.spaceDown := by
  cases e <;> simp only [applyEvent] <;> (repeat' split) <;> rfl

theorem applyEvent_heldFired (s : KState) (e : ToEvent) :
    (applyEvent s e).heldFired = s.heldFired := by
  cases e <;> simp only [applyEvent] <;> (repeat' split) <;> rfl

theorem applyEvents_spaceDown (es : List ToEvent) (s : KState) :
    (applyEvents es s).spaceDown = s.spaceDown := by
  induction es generalizing s with
  | nil => rfl
  | cons e es ih => rw [applyEvents_cons, ih, applyEvent_spaceDown]

theorem applyEvents_heldFired (es : List ToEvent) (s : KState) :
    (applyEvents es s).heldFired = s.heldFired := by
  induction es generalizing s with
  | nil => rfl
  | cons e es ih => rw [applyEvents_cons, ih, applyEvent_heldFired]

theorem applyEvents_vars_of_no_write (es : List ToEvent) (n : String)
    (h : ∀ v, ToEvent.setVar n v ∉ es) (s : KState) :
    (applyEvents es s).vars n = s.vars n := by
  induction es generalizing s with
  | nil => rfl
  | cons e es ih =>
    rw [applyEvents_cons, ih (fun v hv => h v (List.mem_cons_of_mem _ hv))]
    cases e with
    | setVar m v =>
      have hmn : ¬(n = m) := by
        intro hnm
        exact h v (by rw [hnm]; exact List.mem_cons_self _ _)
      simp [applyEvent, hmn]
    | key _ _ _ _ => rfl
    | shell _ => rfl
    | stickyMod _ _ =>
      simp only [applyEvent]
      repeat' split
      all_goals rfl

theorem applyEvents_vars_zero (es : List ToEvent) (n : String)
    (hw : ToEvent.setVar n 0 ∈ es)
    (hall : ∀ v, ToEvent.setVar n v ∈ es → v = 0) (s : KState) :
    (applyEvents es s).vars n = 0 := by
  induction es generalizing s with
  | nil => cases hw
  | cons e es ih =>
    rw [applyEvents_cons]
    by_cases hes : ∃ v, ToEvent.setVar n v ∈ es
    · obtain ⟨v, hv⟩ := hes
      have hv0 : v = 0 := hall v (List.mem_cons_of_mem _ hv)
      exact ih (hv0 ▸ hv) (fun v h => hall v (List.mem_cons_of_mem _ h)) _
    · have he : e = ToEvent.setVar n 0 := by
        rcases List.mem_cons.mp hw with h | h
        · exact h.symm
        · exact absurd ⟨0, h⟩ hes
      rw [applyEvents_vars_of_no_write es n (fun v hv => hes ⟨v, hv⟩)]
      subst he
      simp [applyEvent]

theorem applyEvents_vars_ne_one (es : List ToEvent) (n : String)
    (hall : ∀ v, ToEvent.setVar n v ∈ es → v = 0) (s : KState)
    (hs : s.vars n ≠ 1) : (applyEvents es s).vars n ≠ 1 := by
  by_cases hes : ∃ v, ToEvent.setVar n v ∈ es
  · obtain ⟨v, hv⟩ := hes
    have hv0 : v = 0 := hall v hv
    rw [applyEvents_vars_zero es n (hv0 ▸ hv) hall]
    decide
  · rw [applyEvents_vars_of_no_write es n (fun v hv => hes ⟨v, hv⟩)]
    exact hs

theorem applyEvents_sticky_of_no_sticky (es : List ToEvent) (m : String)
    (h : ∀ st, ToEvent.stickyMod m st ∉ es) (s : KState) :
    (applyEvents es s).sticky m = s.sticky m := by
  induction es generalizing s with
  | nil => rfl
  | cons e es ih =>
    rw [applyEvents_cons, ih (fun st hst => h st (List.mem_cons_of_mem _ hst))]
    cases e with
    | stickyMod m2 st =>
      have hm : ¬(m = m2) := by
        intro hm
        exact h st (by rw [hm]; exact List.mem_cons_self _ _)
      simp only [applyEvent]
      repeat' split
      all_goals simp [hm]
    | key _ _ _ _ => rfl
    | shell _ => rfl
    | setVar _ _ => rfl

theorem applyEvents_sticky_off (es : List ToEvent) (m : String)
    (hw : ToEvent.stickyMod m "off" ∈ es)
    (hall : ∀ st, ToEvent.stickyMod m st ∈ es → st = "off") (s : KState) :
    (applyEvents es s).sticky m = false := by
  induction es generalizing s with
  | nil => cases hw
  | cons e es ih =>
    rw [applyEvents_cons]
    by_cases hes : ∃ st, ToEvent.stickyMod m st ∈ es
    · obtain ⟨st, hst⟩ := hes
      have h0 : st = "off" := hall st (List.mem_cons_of_mem _ hst)
      exact ih (h0 ▸ hst) (fun st h => hall st (List.mem_cons_of_mem _ h)) _
    · have he : e = ToEvent.stickyMod m "off" := by
        rcases List.mem_cons.mp hw with h | h
        · exact h.symm
        · exact absurd ⟨"off", h⟩ hes
      rw [applyEvents_sticky_of_no_sticky es m (fun st hst => hes ⟨st, hst⟩)]
      subst he
      simp [applyEvent]

theorem sublayerVarName_ne_spaceMod (k : String) :
    sublayerVarName k ≠ spaceModVar := by
  intro h
  have hl := congrArg String.length h
  simp [sublayerVarName, spaceModVar, String.length_append,
    show ("space_" : String).length = 6 from rfl,
    show ("_sublayer" : String).length = 9 from rfl,
    show ("space_mod" : String).length = 9 from rfl] at hl

theorem spaceModVar_mem_layerVarNames (layers : List SubLayerConfig) :
    spaceModVar ∈ layerVarNames layers :=
  List.mem_cons_self _ _

theorem sub_mem_layerVarNames (layers : List SubLayerConfig)
    (l : SubLayerConfig) (hl : l ∈ layers) :
    sublayerVarName l.layerKey ∈ layerVarNames layers :=
  List.mem_cons_of_mem _ (List.mem_map.mpr ⟨l, hl, rfl⟩)

theorem spaceAloneEvents_writes (subVars : List String) (n : String)
    (v : Int) (h : ToEvent.setVar n v ∈ spaceAloneEvents subVars) : v = 0 := by
  simp [spaceAloneEvents, toSetVar, toKey, List.mem_cons, List.mem_map] at h
  rcases h with ⟨_, h⟩ | ⟨x, _, _, h⟩ <;>
    first
    | exact h
    | exact h.symm
    | exact h.2
    | exact h.2.symm

theorem spaceAfterKeyUpEvents_writes (subVars : List String) (n : String)
    (v : Int) (h : ToEvent.setVar n v ∈ spaceAfterKeyUpEvents subVars) :
    v = 0 := by
  simp [spaceAfterKeyUpEvents, toSetVar, toStickyModifier, List.mem_cons,
    List.mem_append, List.mem_map] at h
  rcases h with ⟨_, h⟩ | ⟨x, _, _, h⟩ <;>
    first
    | exact h
    | exact h.symm
    | exact h.2
    | exact h.2.symm

theorem spaceCanceledEvents_writes (subVars : List String) (n : String)
    (v : Int) (h : ToEvent.setVar n v ∈ spaceCanceledEvents subVars) :
    v = 0 := by
  simp [spaceCanceledEvents, toSetVar, toKey, List.mem_cons, List.mem_map] at h
  rcases h with ⟨_, h⟩ | ⟨x, _, _, h⟩ <;>
    first
    | exact h
    | exact h.symm
    | exact h.2
    | exact h.2.symm

theorem escapeToEvents_writes (subVars : List String) (n : String)
    (v : Int) (h : ToEvent.setVar n v ∈ escapeToEvents subVars) : v = 0 := by
  simp [escapeToEvents, escapeOtherVars, toSetVar, toKey, toStickyModifier,
    List.mem_cons, List.mem_append, List.mem_map] at h
  rcases h with ⟨_, h⟩ | ⟨x, _, _, h⟩ | h | h | h | h <;>
    first
    | exact h
    | exact h.symm
    | exact h.2
    | exact h.2.symm

theorem spaceAfterKeyUpEvents_mem (subVars : List String) (n : String)
    (hn : n = spaceModVar ∨ n ∈ subVars) :
    ToEvent.setVar n 0 ∈ spaceAfterKeyUpEvents subVars := by
  rcases hn with rfl | hn
  · exact List.mem_cons_self _ _
  · exact List.mem_cons_of_mem _
      (List.mem_append_left _ (List.mem_map.mpr ⟨n, hn, rfl⟩))

theorem spaceCanceledEvents_mem (subVars : List String) (n : String)
    (hn : n = spaceModVar ∨ n ∈ subVars) :
    ToEvent.setVar n 0 ∈ spaceCanceledEvents subVars := by
  rcases hn with rfl | hn
  · exact List.mem_cons_of_mem _ (List.mem_cons_self _ _)
  · exact List.mem_cons_of_mem _
      (List.mem_cons_of_mem _ (List.mem_map.mpr ⟨n, hn, rfl⟩))

theorem escapeToEvents_mem (subVars : List String) (n : String)
    (hn : n = spaceModVar ∨ n ∈ subVars ∨ n ∈ escapeOtherVars) :
    ToEvent.setVar n 0 ∈ escapeToEvents subVars := by
  rcases hn with rfl | hn | hn
  · exact List.mem_cons_of_mem _ (List.mem_cons_self _ _)
  · exact List.mem_cons_of_mem _ (List.mem_cons_of_mem _
      (List.mem_append_left _
        (List.mem_append_left _ (List.mem_map.mpr ⟨n, hn, rfl⟩))))
  · exact List.mem_cons_of_mem _ (List.mem_cons_of_mem _
      (List.mem_append_left _
        (List.mem_append_right _ (List.mem_map.mpr ⟨n, hn, rfl⟩))))

theorem mappingCoreEvents_no_setVar (cfg : MappingConfig) (n : String)
    (v : Int) : ToEvent.setVar n v ∉ mappingCoreEvents cfg := by
  intro h
  unfold mappingCoreEvents at h
  split at h
  · simp [cmd] at h
  · split at h
    · simp [cmd] at h
    · split at h
      · simp [toStickyModifier] at h
      · split at h
        · split at h <;> simp [toKey] at h
        · simp at h

theorem mappingEvents_writes (rel : Bool) (sv : String) (cfg : MappingConfig)
    (n : String) (v : Int)
    (h : ToEvent.setVar n v ∈ mappingEvents rel sv cfg) : v = 0 := by
  unfold mappingEvents at h
  rcases List.mem_append.mp h with h | h
  · exact absurd h (mappingCoreEvents_no_setVar cfg n v)
  · split at h
    · simp [toSetVar] at h
      first
      | exact h.2
      | exact h.2.symm
    · simp at h

theorem heldVars (subVars : List String) (s : KState) (q : String) :
    (applyEvents (spaceManipulator subVars).to_if_held_down s).vars q
      = if q = spaceModVar then 1 else s.vars q := rfl

theorem activateVars (k : String) (s : KState) (q : String) :
    (applyEvents (sublayerActivationManipulator k).toEvents s).vars q
      = if q = spaceModVar then 0
        else if q = sublayerVarName k then 1 else s.vars q := rfl



theorem spaceInv_of_allInactive (layers : List SubLayerConfig) (t : KState)
    (h : allLayerVarsInactive layers t) : SpaceInv layers t := by
  refine ⟨?_, fun _ => h, fun _ => h⟩
  intro a ha b hb h1 _
  exact absurd h1 (h a ha)

theorem spaceStep_preserves (layers : List SubLayerConfig) {s t : KState}
    (hst : SpaceStep layers s t) (hinv : SpaceInv layers s) :
    SpaceInv layers t := by
  obtain ⟨hx, hdown, hheld⟩ := hinv
  cases hst with
  | press h =>
    refine ⟨hx, ?_, ?_⟩
    · intro hfalse
      exact Bool.noConfusion hfalse
    · intro _
      exact hdown h
  | held h1 h2 =>
    have hall := hheld h2
    have hva : ∀ q,
        ({ applyEvents (spaceManipulator (subVarNames layers)).to_if_held_down s
           with heldFired := true } : KState).vars q
          = if q = spaceModVar then 1 else s.vars q :=
      fun q => heldVars (subVarNames layers) s q
    refine ⟨?_, ?_, ?_⟩
    · intro a ha b hb ha1 hb1
      by_cases haM : a = spaceModVar
      · by_cases hbM : b = spaceModVar
        · rw [haM, hbM]
        · exfalso
          have hb' := hva b
          rw [if_neg hbM] at hb'
          exact hall b hb (by rw [← hb']; exact hb1)
      · exfalso
        have ha' := hva a
        rw [if_neg haM] at ha'
        exact hall a ha (by rw [← ha']; exact ha1)
    · intro hfalse
      rw [show ({ applyEvents (spaceManipulator (subVarNames layers)).to_if_held_down s
            with heldFired := true } : KState).spaceDown = s.spaceDown from
          applyEvents_spaceDown _ s, h1] at hfalse
      exact Bool.noConfusion hfalse
    · intro hfalse
      exact Bool.noConfusion hfalse
  | release h =>
    refine spaceInv_of_allInactive layers _ ?_
    intro n hn
    show (applyEvents (spaceAfterKeyUpEvents (subVarNames layers)) s).vars n ≠ 1
    rw [applyEvents_vars_zero _ n
      (spaceAfterKeyUpEvents_mem _ n (List.mem_cons.mp hn))
      (fun v hv => spaceAfterKeyUpEvents_writes _ n v hv)]
    decide
  | releaseAlone h =>
    refine spaceInv_of_allInactive layers _ ?_
    intro n hn
    show (applyEvents (spaceAloneEvents (subVarNames layers)
      ++ spaceAfterKeyUpEvents (subVarNames layers)) s).vars n ≠ 1
    rw [applyEvents_append]
    rw [applyEvents_vars_zero _ n
      (spaceAfterKeyUpEvents_mem _ n (List.mem_cons.mp hn))
      (fun v hv => spaceAfterKeyUpEvents_writes _ n v hv)]
    decide
  | delayedCanceled =>
    refine spaceInv_of_allInactive layers _ ?_
    intro n hn
    rw [applyEvents_vars_zero _ n
      (spaceCanceledEvents_mem _ n (List.mem_cons.mp hn))
      (fun v hv => spaceCanceledEvents_writes _ n v hv)]
    decide
  | escapeKey =>
    refine spaceInv_of_allInactive layers _ ?_
    intro n hn
    rw [applyEvents_vars_zero _ n
      (escapeToEvents_mem _ n (by
        rcases List.mem_cons.mp hn with h | h
        · exact Or.inl h
        · exact Or.inr (Or.inl h)))
      (fun v hv => escapeToEvents_writes _ n v hv)]
    decide
  | activate l hl hv =>
    have hva := activateVars l.layerKey s
    have hheldT : s.heldFired = true := by
      cases hhf : s.heldFired
      · exact absurd hv (hheld hhf spaceModVar (spaceModVar_mem_layerVarNames layers))
      · rfl
    have hdownT : s.spaceDown = true := by
      cases hsd : s.spaceDown
      · exact absurd hv (hdown hsd spaceModVar (spaceModVar_mem_layerVarNames layers))
      · rfl
    refine ⟨?_, ?_, ?_⟩
    · intro a ha b hb ha1 hb1
      have key : ∀ x, x ∈ layerVarNames layers →
          (applyEvents (sublayerActivationManipulator l.layerKey).toEvents s).vars x = 1 →
          x = sublayerVarName l.layerKey := by
        intro x hxmem hx1
        rw [hva x] at hx1
        by_cases hxM : x = spaceModVar
        · rw [if_pos hxM] at hx1
          exact absurd hx1 (by decide)
        · rw [if_neg hxM] at hx1
          by_cases hxS : x = sublayerVarName l.layerKey
          · exact hxS
          · rw [if_neg hxS] at hx1
            exact absurd
              (hx x hxmem spaceModVar (spaceModVar_mem_layerVarNames layers) hx1 hv)
              hxM
      rw [key a ha ha1, key b hb hb1]
    · intro hfalse
      rw [applyEvents_spaceDown, hdownT] at hfalse
      exact Bool.noConfusion hfalse
    · intro hfalse
      rw [applyEvents_heldFired, hheldT] at hfalse
      exact Bool.noConfusion hfalse
  | mapAction l k cfg hl hm hv =>
    have hwz : ∀ n v,
        ToEvent.setVar n v ∈ mappingEvents (l.releaseLayer.getD true)
          (sublayerVarName l.layerKey) cfg → v = 0 :=
      fun n v h => mappingEvents_writes _ _ _ n v h
    refine ⟨?_, ?_, ?_⟩
    · intro a ha b hb ha1 hb1
      have ha' : s.vars a = 1 := by
        by_contra hne
        exact (applyEvents_vars_ne_one _ a (hwz a) s hne) ha1
      have hb' : s.vars b = 1 := by
        by_contra hne
        exact (applyEvents_vars_ne_one _ b (hwz b) s hne) hb1
      exact hx a ha b hb ha' hb'
    · intro hfalse
      rw [applyEvents_spaceDown] at hfalse
      intro n hn
      exact applyEvents_vars_ne_one _ n (hwz n) s (hdown hfalse n hn)
    · intro hfalse
      rw [applyEvents_heldFired] at hfalse
      intro n hn
      exact applyEvents_vars_ne_one _ n (hwz n) s (hheld hfalse n hn)
  | foreign es hes =>
    have hnw : ∀ n, n ∈ layerVarNames layers → ∀ v, ToEvent.setVar n v ∉ es :=
      fun n hn v hv => (hes n v hv) hn
    refine ⟨?_, ?_, ?_⟩
    · intro a ha b hb ha1 hb1
      rw [applyEvents_vars_of_no_write es a (hnw a ha) s] at ha1
      rw [applyEvents_vars_of_no_write es b (hnw b hb) s] at hb1
      exact hx a ha b hb ha1 hb1
    · intro hfalse
      rw [applyEvents_spaceDown] at hfalse
      intro n hn
      rw [applyEvents_vars_of_no_write es n (hnw n hn) s]
      exact hdown hfalse n hn
    · intro hfalse
      rw [applyEvents_heldFired] at hfalse
      intro n hn
      rw [applyEvents_vars_of_no_write es n (hnw n hn) s]
      exact hheld hfalse n hn

theorem reachableSpace_inv (layers : List SubLayerConfig) (s : KState)
    (h : ReachableSpace layers s) : SpaceInv layers s := by
  have h' : Relation.ReflTransGen (SpaceStep layers) initState s := h
  clear h
  induction h' with
  | refl =>
    exact spaceInv_of_allInactive layers initState
      (fun n _ => by exact (by decide : (0 : Int) ≠ 1))
  | tail hsteps hstep ih => exact spaceStep_preserves layers hstep ih

theorem generateTapHoldRules_guards (ks : List (String × TapHoldConfig))
    (layers : List SubLayerConfig) :
    ∀ r ∈ generateTapHoldRules ks layers, ∀ m ∈ r.manipulators,
      Cond.varUnless spaceModVar 1 ∈ m.conditions
        ∧ ∀ l ∈ layers,
            Cond.varUnless (sublayerVarName l.layerKey) 1 ∈ m.conditions := by
  intro r hr m hm
  obtain ⟨kc, hkc, rfl⟩ := List.mem_map.mp hr
  obtain ⟨m0, hm0, rfl⟩ := List.mem_map.mp hm
  constructor
  · exact List.mem_append_right _ (List.mem_cons_self _ _)
  · intro l hl
    refine List.mem_append_right _ (List.mem_cons_of_mem _ ?_)
    exact List.mem_map.mpr
      ⟨sublayerVarName l.layerKey, List.mem_map.mpr ⟨l, hl, rfl⟩, rfl⟩

theorem tapHold_eq_parts (opts : TapHoldOpts) :
    tapHold opts
      = opts.appOverrides.map (tapHoldOverrideManip opts)
        ++ [tapHoldDefaultManip opts] := rfl

theorem tapHoldDefaultManip_conditions (opts : TapHoldOpts) :
    (tapHoldDefaultManip opts).conditions = [] := rfl

theorem tapHoldOverrideManip_conditions (opts : TapHoldOpts)
    (ov : AppOverride) :
    (tapHoldOverrideManip opts ov).conditions = [appCondOf ov] := rfl

theorem tapHoldDefaultManip_applicable (env : CondEnv) (opts : TapHoldOpts) :
    manipulatorApplicable env (tapHoldDefaultManip opts) = true := rfl

theorem find?_concat_of_last {α : Type} (p : α → Bool) (xs : List α) (d : α)
    (hd : p d = true) :
    (xs ++ [d]).find? p = some ((xs.find? p).getD d) := by
  induction xs with
  | nil => simp [List.find?, hd]
  | cons x xs ih =>
    by_cases hx : p x
    · simp [List.find?_cons_of_pos _ hx, hx]
    · rw [List.cons_append, List.find?_cons_of_neg _ hx,
        List.find?_cons_of_neg _ hx, ih]

theorem escapeToEvents_sticky (subVars : List String) (m st : String)
    (h : ToEvent.stickyMod m st ∈ escapeToEvents subVars) : st = "off" := by
  simp [escapeToEvents, escapeOtherVars, toSetVar, toKey, toStickyModifier,
    List.mem_cons, List.mem_append, List.mem_map] at h
  rcases h with h | h | h | h <;>
    first
    | exact h
    | exact h.symm
    | exact h.2
    | exact h.2.symm

theorem escapeToEvents_sticky_mem (subVars : List String) (m : String)
    (hm : m = Lshift ∨ m = Lopt ∨ m = Lcmd ∨ m = Lctrl) :
    ToEvent.stickyMod m "off" ∈ escapeToEvents subVars := by
  refine List.mem_cons_of_mem _ (List.mem_cons_of_mem _
    (List.mem_append_right _ ?_))
  rcases hm with rfl | rfl | rfl | rfl <;> decide

theorem spaceAfterKeyUpEvents_sticky (subVars : List String) (m st : String)
    (h : ToEvent.stickyMod m st ∈ spaceAfterKeyUpEvents subVars) :
    st = "off" := by
  simp [spaceAfterKeyUpEvents, toSetVar, toStickyModifier,
    List.mem_cons, List.mem_append, List.mem_map] at h
  rcases h with h | h | h | h <;>
    first
    | exact h
    | exact h.symm
    | exact h.2
    | exact h.2.symm

theorem spaceAfterKeyUpEvents_sticky_mem (subVars : List String) (m : String)
    (hm : m = Lshift ∨ m = Lopt ∨ m = Lcmd ∨ m = Lctrl) :
    ToEvent.stickyMod m "off" ∈ spaceAfterKeyUpEvents subVars := by
  refine List.mem_cons_of_mem _ (List.mem_append_right _ ?_)
  rcases hm with rfl | rfl | rfl | rfl <;> decide

theorem mappingCoreEvents_ne_setVar (cfg : MappingConfig) (e : ToEvent)
    (he : e ∈ mappingCoreEvents cfg) (n : String) (v : Int) :
    e ≠ ToEvent.setVar n v :=
  fun h => mappingCoreEvents_no_setVar cfg n v (h ▸ he)

/-- C1: every manipulator generated by generateTapHoldRules, and by the
parallel tapHoldRules construction of src/index.ts, carries the suppressing
conditions variable_unless space_mod = 1 and variable_unless
space_L_sublayer = 1 for every registered sublayer L, with the guard list
derived from the live sublayer list, so extending the input list extends
every generated guard list. -/
theorem C1_conflict_guards :
    (∀ (ks : List (String × TapHoldConfig)) (layers : List SubLayerConfig),
      ∀ r ∈ generateTapHoldRules ks layers, ∀ m ∈ r.manipulators,
        Cond.varUnless spaceModVar 1 ∈ m.conditions
          ∧ ∀ l ∈ layers,
              Cond.varUnless (sublayerVarName l.layerKey) 1 ∈ m.conditions)
    ∧ (∀ r ∈ tapHoldRules, ∀ m ∈ r.manipulators,
        Cond.varUnless spaceModVar 1 ∈ m.conditions
          ∧ ∀ l ∈ indexSpaceLayers,
              Cond.varUnless (sublayerVarName l.layerKey) 1 ∈ m.conditions) :=
  ⟨fun ks layers => generateTapHoldRules_guards ks layers,
   generateTapHoldRules_guards indexTapHoldKeys indexSpaceLayers⟩

theorem C1_conflict_guards_witness :
    Cond.varUnless spaceModVar 1 ∈
      ((generateTapHoldRules c1Keys [c6Layer]).headI.manipulators.headI).conditions
    ∧ Cond.varUnless (sublayerVarName "z") 1 ∈
      ((generateTapHoldRules c1Keys [c6Layer]).headI.manipulators.headI).conditions := by
  have h := C1_conflict_guards.1 c1Keys [c6Layer]
    (generateTapHoldRules c1Keys [c6Layer]).headI (List.mem_cons_self _ _)
    ((generateTapHoldRules c1Keys [c6Layer]).headI.manipulators.headI)
    (List.mem_cons_self _ _)
  exact ⟨h.1, h.2 c6Layer (List.mem_cons_self _ _)⟩

/-- C2: in the manipulator list varTapTapHold builds, every manipulator
conditioned on the first-tap variable being 1 occurs at a strictly smaller
index than the unconditional manipulator whose to-list sets the first-tap
variable to 1 on a fresh press. -/
theorem C2_continuation_before_initiation (o : VarTapTapHoldOpts)
    (i j : Nat) (mi mj : Manipulator)
    (hi : (varTapTapHold o).get? i = some mi)
    (hj : (varTapTapHold o).get? j = some mj)
    (hcond : Cond.varIf o.firstVar 1 ∈ mi.conditions)
    (hunc : mj.conditions = [])
    (hset : ToEvent.setVar o.firstVar 1 ∈ mj.toEvents) :
    i < j := by
  unfold varTapTapHold at hi hj
  by_cases hb :
      (!(o.aloneEvents.getD []).isEmpty || !(o.holdEvents.getD []).isEmpty)
        = true
  · rw [if_pos hb] at hi hj
    rcases i with _ | _ | _ | i <;> rcases j with _ | _ | _ | j <;>
      simp only [List.get?] at hi hj <;>
      first
      | exact Option.noConfusion hi
      | exact Option.noConfusion hj
      | (injection hi with hi
         injection hj with hj
         subst hi
         subst hj
         first
         | omega
         | simp [secondTapManipulator, firstTapManipulator,
             tapHandlerTapManipulator] at hunc hcond)
  · rw [if_neg hb] at hi hj
    rcases i with _ | _ | i <;> rcases j with _ | _ | j <;>
      simp only [List.get?] at hi hj <;>
      first
      | exact Option.noConfusion hi
      | exact Option.noConfusion hj
      | (injection hi with hi
         injection hj with hj
         subst hi
         subst hj
         first
         | omega
         | simp [secondTapManipulator, firstTapManipulator] at hunc hcond)

theorem C2_continuation_before_initiation_witness : (0 : Nat) < 1 := by
  refine C2_continuation_before_initiation c2Opts 0 1
    (secondTapManipulator c2Opts) (firstTapManipulator c2Opts)
    (by decide) (by decide) (by decide) (by decide) (by decide)

/-- C3: the escape rule is one rule with one unconditional manipulator
whose single action list, applied to any state, zeroes space_mod, every
sublayer variable and the four static variables (caps_lock_pressed,
command_q_pressed, ctrl_opt_esc_first, cmd_d_ready) and switches the four
sticky modifiers off in one step. -/
theorem C3_escape_reset (layers : List SubLayerConfig) (s : KState) :
    generateEscapeRule layers
      = [{ descr := "ESCAPE - reset all variables"
           manipulators := [escapeManipulator (subVarNames layers)] }]
    ∧ (escapeManipulator (subVarNames layers)).conditions = []
    ∧ (applyEvents (escapeManipulator (subVarNames layers)).toEvents s).vars
        spaceModVar = 0
    ∧ (∀ l ∈ layers,
        (applyEvents (escapeManipulator (subVarNames layers)).toEvents s).vars
          (sublayerVarName l.layerKey) = 0)
    ∧ (∀ n ∈ escapeOtherVars,
        (applyEvents (escapeManipulator (subVarNames layers)).toEvents s).vars
          n = 0)
    ∧ (∀ m, m = Lshift ∨ m = Lopt ∨ m = Lcmd ∨ m = Lctrl →
        (applyEvents (escapeManipulator (subVarNames layers)).toEvents s).sticky
          m = false) := by
  refine ⟨rfl, rfl, ?_, ?_, ?_, ?_⟩
  · exact applyEvents_vars_zero _ _
      (escapeToEvents_mem _ _ (Or.inl rfl))
      (fun v hv => escapeToEvents_writes _ _ v hv) s
  · intro l hl
    exact applyEvents_vars_zero _ _
      (escapeToEvents_mem _ _ (Or.inr (Or.inl (List.mem_map.mpr ⟨l, hl, rfl⟩))))
      (fun v hv => escapeToEvents_writes _ _ v hv) s
  · intro n hn
    exact applyEvents_vars_zero _ _
      (escapeToEvents_mem _ _ (Or.inr (Or.inr hn)))
      (fun v hv => escapeToEvents_writes _ _ v hv) s
  · intro m hm
    exact applyEvents_sticky_off _ m
      (escapeToEvents_sticky_mem _ m hm)
      (fun st hst => escapeToEvents_sticky _ m st hst) s

theorem C3_escape_reset_witness :
    (applyEvents (escapeManipulator (subVarNames indexSpaceLayers)).toEvents
      wedgedState).vars "caps_lock_pressed" = 0
    ∧ (applyEvents (escapeManipulator (subVarNames indexSpaceLayers)).toEvents
        wedgedState).vars (sublayerVarName "d") = 0
    ∧ (applyEvents (escapeManipulator (subVarNames indexSpaceLayers)).toEvents
        wedgedState).sticky Lshift = false := by
  have h := C3_escape_reset indexSpaceLayers wedgedState
  refine ⟨h.2.2.2.2.1 "caps_lock_pressed" (by decide), ?_, ?_⟩
  · exact h.2.2.2.1 layerDownloads
      (List.mem_cons_of_mem _ (List.mem_cons_of_mem _ (List.mem_cons_self _ _)))
  · exact h.2.2.2.2.2 Lshift (Or.inl rfl)

/-- C4: in every reachable state of the Sublayer Activation Network at most
one of space_mod and the sublayer variables equals 1; the only transition
that trades them, sublayer activation, is conditioned on space_mod = 1 at
dispatch time and sets the sublayer variable to 1 and space_mod to 0
atomically as one to-list. -/
theorem C4_mutual_exclusion (layers : List SubLayerConfig) (s : KState)
    (h : ReachableSpace layers s) :
    activeAtMostOne layers s
    ∧ (∀ l : SubLayerConfig,
        (sublayerActivationManipulator l.layerKey).conditions
          = [Cond.varIf spaceModVar 1]
        ∧ (sublayerActivationManipulator l.layerKey).toEvents
          = [toSetVar (sublayerVarName l.layerKey) 1,
             toSetVar spaceModVar 0]) :=
  ⟨(reachableSpace_inv layers s h).1, fun _ => ⟨rfl, rfl⟩⟩

theorem C4_mutual_exclusion_witness :
    activeAtMostOne indexSpaceLayers
      (applyEvents
        (sublayerActivationManipulator layerApplications.layerKey).toEvents
        ({ applyEvents
            (spaceManipulator (subVarNames indexSpaceLayers)).to_if_held_down
            ({ initState with spaceDown := true, heldFired := false })
           with heldFired := true })) := by
  have hreach : ReachableSpace indexSpaceLayers
      (applyEvents
        (sublayerActivationManipulator layerApplications.layerKey).toEvents
        ({ applyEvents
            (spaceManipulator (subVarNames indexSpaceLayers)).to_if_held_down
            ({ initState with spaceDown := true, heldFired := false })
           with heldFired := true })) :=
    Relation.ReflTransGen.tail
      (Relation.ReflTransGen.tail
        (Relation.ReflTransGen.tail Relation.ReflTransGen.refl
          (SpaceStep.press initState rfl))
        (SpaceStep.held _ rfl rfl))
      (SpaceStep.activate _ layerApplications (List.mem_cons_self _ _) rfl)
  exact (C4_mutual_exclusion indexSpaceLayers _ hreach).1

/-- C5 counterexample: tapHold with both event lists empty builds a single
manipulator that emits nothing on a tap, while an unmapped key would emit
itself, so the unit is not behaviorally equivalent to no remapping. -/
theorem C5_counterexample :
    tapHold c5Opts
      = [{ fromKey := "x"
           delayedAction := some { to_if_invoked := [], to_if_canceled := [] }
           aloneTimeoutMs := some 300
           heldThresholdMs := some 300 }]
    ∧ tapEmits (tapHold c5Opts).headI = []
    ∧ holdEmits (tapHold c5Opts).headI = []
    ∧ passThroughTapEmits "x" = [toKey "x"]
    ∧ tapEmits (tapHold c5Opts).headI ≠ passThroughTapEmits "x" := by
  refine ⟨rfl, rfl, rfl, rfl, ?_⟩
  decide

/-- C5 amended: with both event lists empty (absent or supplied empty) and
no cancel, invoked or override options, tapHold legally builds one
manipulator that captures the key and emits nothing on tap or hold: the key
is suppressed, exactly the empty-to-events DISABLE pattern of src/index.ts,
rather than passed through unchanged. -/
theorem C5_empty_lists_suppress_key (opts : TapHoldOpts)
    (ha : opts.alone = none ∨ opts.alone = some [])
    (hh : opts.hold = none ∨ opts.hold = some [])
    (hc : opts.cancel = none) (hinv : opts.invoked = none)
    (hov : opts.appOverrides = []) :
    ∃ m : Manipulator, tapHold opts = [m]
      ∧ m.toEvents = [] ∧ m.to_if_alone = [] ∧ m.to_if_held_down = []
      ∧ m.delayedAction = some { to_if_invoked := [], to_if_canceled := [] }
      ∧ tapEmits m = [] ∧ holdEmits m = []
      ∧ tapEmits m ≠ passThroughTapEmits opts.key := by
  have hm : tapHoldDefaultManip opts
      = { fromKey := opts.key
          delayedAction := some { to_if_invoked := [], to_if_canceled := [] }
          aloneTimeoutMs := some (opts.timeoutMs.getD 300)
          heldThresholdMs := some (opts.thresholdMs.getD 300) } := by
    unfold tapHoldDefaultManip makeBuilder coalesce3
    rcases ha with ha | ha <;> rw [ha, hc, hinv] <;> rcases hh with hh | hh <;>
      rw [hh] <;> rfl
  refine ⟨tapHoldDefaultManip opts, ?_, ?_, ?_, ?_, ?_, ?_, ?_, ?_⟩
  · rw [tapHold_eq_parts, hov]
    rfl
  · rw [hm]
  · rw [hm]
  · rw [hm]
  · rw [hm]
  · rw [hm]
    rfl
  · rw [hm]
    rfl
  · rw [hm]
    simp [tapEmits, passThroughTapEmits, toKey]

theorem C5_empty_lists_suppress_key_witness :
    ∃ m : Manipulator, tapHold c5Opts = [m]
      ∧ m.toEvents = [] ∧ m.to_if_alone = [] ∧ m.to_if_held_down = []
      ∧ m.delayedAction = some { to_if_invoked := [], to_if_canceled := [] }
      ∧ tapEmits m = [] ∧ holdEmits m = []
      ∧ tapEmits m ≠ passThroughTapEmits c5Opts.key :=
  C5_empty_lists_suppress_key c5Opts (Or.inr rfl) (Or.inr rfl) rfl rfl rfl

/-- C6 counterexample: in a layer whose releaseLayer defaults to true, the
sticky-modifier mapping manipulator generated by generateSpaceLayerRules
has an action list containing no reset of the sublayer variable at all, so
the action list does not end with the reset although the persistence policy
is auto-release. -/
theorem C6_counterexample :
    c6Layer.releaseLayer.getD true = true
    ∧ (∃ r ∈ generateSpaceLayerRules [c6Layer], ∃ m ∈ r.manipulators,
        m.conditions = [Cond.varIf (sublayerVarName "z") 1]
        ∧ (∀ e ∈ m.toEvents, ∀ v : Int,
            e ≠ toSetVar (sublayerVarName "z") v)
        ∧ ¬ endsWithReset m.toEvents (sublayerVarName "z")) := by
  refine ⟨rfl, _, List.mem_cons_of_mem _ (List.mem_cons_self _ _),
    _, List.mem_cons_of_mem _ (List.mem_cons_self _ _), rfl, ?_, ?_⟩
  · intro e he v heq
    rcases List.mem_singleton.mp he with rfl
    exact ToEvent.noConfusion heq
  · intro hend
    unfold endsWithReset at hend
    exact absurd hend (by decide)

/-- C6 amended: a sublayer mapping action list ends with the reset of the
sublayer variable exactly when the layer is auto-release (releaseLayer
true) and the mapping is not a sticky-modifier toggle; in every other case
(sticky layer, or sticky-modifier mapping) the action list contains no
write to the sublayer variable at all. -/
theorem C6_reset_iff (layers : List SubLayerConfig) (l : SubLayerConfig)
    (hl : l ∈ layers) (k : String) (cfg : MappingConfig)
    (hm : (k, cfg) ∈ l.mappings) :
    (∃ r ∈ generateSpaceLayerRules layers,
      mappingManipulator (sublayerVarName l.layerKey)
        (l.releaseLayer.getD true) k cfg ∈ r.manipulators)
    ∧ (endsWithReset
        (mappingManipulator (sublayerVarName l.layerKey)
          (l.releaseLayer.getD true) k cfg).toEvents
        (sublayerVarName l.layerKey)
      ↔ (l.releaseLayer.getD true = true ∧ cfg.stickyModifier = none))
    ∧ (¬(l.releaseLayer.getD true = true ∧ cfg.stickyModifier = none) →
        ∀ v : Int,
          toSetVar (sublayerVarName l.layerKey) v ∉
            (mappingManipulator (sublayerVarName l.layerKey)
              (l.releaseLayer.getD true) k cfg).toEvents) := by
  have hbiff :
      ((l.releaseLayer.getD true && cfg.stickyModifier.isNone) = true)
        ↔ (l.releaseLayer.getD true = true ∧ cfg.stickyModifier = none) := by
    rw [Bool.and_eq_true, Option.isNone_iff_eq_none]
  refine ⟨?_, ?_, ?_⟩
  · refine ⟨_, List.mem_cons_of_mem _ (List.mem_map.mpr ⟨l, hl, rfl⟩), ?_⟩
    exact List.mem_cons_of_mem _ (List.mem_map.mpr ⟨(k, cfg), hm, rfl⟩)
  · show endsWithReset
      (mappingEvents (l.releaseLayer.getD true) (sublayerVarName l.layerKey) cfg)
      (sublayerVarName l.layerKey) ↔ _
    unfold mappingEvents endsWithReset
    by_cases hb :
        (l.releaseLayer.getD true && cfg.stickyModifier.isNone) = true
    · rw [if_pos hb, List.getLast?_concat]
      simp only [hbiff] at hb
      simp [hb]
    · rw [if_neg hb, List.append_nil]
      constructor
      · intro hlast
        exfalso
        exact mappingCoreEvents_no_setVar cfg (sublayerVarName l.layerKey) 0
          (List.mem_of_mem_getLast?
            (show _ ∈ (mappingCoreEvents cfg).getLast? from by
              rw [hlast]; rfl))
      · intro hcontra
        exact absurd (hbiff.mpr hcontra) hb
  · intro hnot v hv
    have hb : (l.releaseLayer.getD true && cfg.stickyModifier.isNone) = false := by
      rcases Bool.eq_false_or_eq_true
          (l.releaseLayer.getD true && cfg.stickyModifier.isNone) with h | h
      · exact absurd (hbiff.mp h) hnot
      · exact h
    have hv' : toSetVar (sublayerVarName l.layerKey) v ∈
        mappingEvents (l.releaseLayer.getD true) (sublayerVarName l.layerKey)
          cfg := hv
    unfold mappingEvents at hv'
    rw [hb] at hv'
    simp only [Bool.false_eq_true, if_false, List.append_nil] at hv'
    exact mappingCoreEvents_no_setVar cfg (sublayerVarName l.layerKey) v hv'

theorem C6_reset_iff_witness :
    endsWithReset
      (mappingManipulator (sublayerVarName layerDownloads.layerKey)
        (layerDownloads.releaseLayer.getD true) "p"
        { path := some "/Users/jason/Downloads/PDFs", descr := "PDFs" }).toEvents
      (sublayerVarName layerDownloads.layerKey) := by
  have h := C6_reset_iff indexSpaceLayers layerDownloads
    (List.mem_cons_of_mem _ (List.mem_cons_of_mem _ (List.mem_cons_self _ _)))
    "p" { path := some "/Users/jason/Downloads/PDFs", descr := "PDFs" }
    (List.mem_cons_of_mem _ (List.mem_cons_self _ _))
  exact h.2.1.mpr ⟨rfl, rfl⟩

/-- C7: tapHold builds one manipulator per appOverrides entry, each carrying
exactly that override's foreground-application condition (negated when
unless is set), all placed before the unconditioned default manipulator;
dispatch therefore selects the first applicable override and falls back to
the default pair when no override condition holds. -/
theorem C7_app_overrides (opts : TapHoldOpts) (env : CondEnv) :
    tapHold opts
      = opts.appOverrides.map (tapHoldOverrideManip opts)
        ++ [tapHoldDefaultManip opts]
    ∧ (∀ ov ∈ opts.appOverrides,
        (tapHoldOverrideManip opts ov).conditions = [appCondOf ov])
    ∧ (tapHoldDefaultManip opts).conditions = []
    ∧ selectManipulator env (tapHold opts)
        = some (((opts.appOverrides.map (tapHoldOverrideManip opts)).find?
            (manipulatorApplicable env)).getD (tapHoldDefaultManip opts))
    ∧ ((∀ ov ∈ opts.appOverrides, condHolds env (appCondOf ov) = false) →
        selectManipulator env (tapHold opts)
          = some (tapHoldDefaultManip opts)) := by
  refine ⟨tapHold_eq_parts opts, fun ov _ => rfl, rfl, ?_, ?_⟩
  · unfold selectManipulator
    rw [tapHold_eq_parts]
    exact find?_concat_of_last _ _ _ (tapHoldDefaultManip_applicable env opts)
  · intro hnone
    unfold selectManipulator
    rw [tapHold_eq_parts,
      find?_concat_of_last _ _ _ (tapHoldDefaultManip_applicable env opts)]
    have hfind : (opts.appOverrides.map (tapHoldOverrideManip opts)).find?
        (manipulatorApplicable env) = none := by
      rw [List.find?_eq_none]
      intro m hmem
      obtain ⟨ov, hov, rfl⟩ := List.mem_map.mp hmem
      simp [manipulatorApplicable, tapHoldOverrideManip_conditions,
        hnone ov hov]
    rw [hfind]
    rfl

theorem C7_app_overrides_witness :
    selectManipulator c7Env (tapHold c7Opts)
      = some (tapHoldDefaultManip c7Opts) :=
  (C7_app_overrides c7Opts c7Env).2.2.2.2 (by decide)

/-- C8: the firstTap manipulator of varTapTapHold re-emits the key right
after setting the first-tap variable, and its timeout (to_if_invoked)
branch is exactly the reset of the variable to 0: applying it changes no
other variable and no sticky flag, and the branch contains no key, shell
or sticky event. -/
theorem C8_timeout_only_resets (o : VarTapTapHoldOpts) (s : KState) :
    firstTapManipulator o ∈ varTapTapHold o
    ∧ (firstTapManipulator o).toEvents = [toSetVar o.firstVar 1, toKey o.key]
    ∧ (firstTapManipulator o).delayedAction
        = some { to_if_invoked := [toSetVar o.firstVar 0]
                 to_if_canceled := [toSetVar o.firstVar 0] }
    ∧ (applyEvents [toSetVar o.firstVar 0] s).vars o.firstVar = 0
    ∧ (∀ n, n ≠ o.firstVar →
        (applyEvents [toSetVar o.firstVar 0] s).vars n = s.vars n)
    ∧ (∀ m, (applyEvents [toSetVar o.firstVar 0] s).sticky m = s.sticky m)
    ∧ (∀ e ∈ [toSetVar o.firstVar 0], e = toSetVar o.firstVar 0) := by
  refine ⟨?_, rfl, rfl, ?_, ?_, fun m => rfl, ?_⟩
  · unfold varTapTapHold
    split
    · exact List.mem_cons_of_mem _
        (List.mem_cons_of_mem _ (List.mem_cons_self _ _))
    · exact List.mem_cons_of_mem _ (List.mem_cons_self _ _)
  · show (if o.firstVar = o.firstVar then (0 : Int) else s.vars o.firstVar) = 0
    rw [if_pos rfl]
  · intro n hn
    show (if n = o.firstVar then (0 : Int) else s.vars n) = s.vars n
    rw [if_neg hn]
  · intro e he
    simpa using he

theorem C8_timeout_only_resets_witness :
    (applyEvents [toSetVar c2Opts.firstVar 0] wedgedState).vars
      c2Opts.firstVar = 0
    ∧ (applyEvents [toSetVar c2Opts.firstVar 0] wedgedState).vars
        "unrelated_var" = wedgedState.vars "unrelated_var" := by
  have h := C8_timeout_only_resets c2Opts wedgedState
  exact ⟨h.2.2.2.1, h.2.2.2.2.1 "unrelated_var" (by decide)⟩

/-- C9: when no explicit cancel list is supplied, neither top-level nor on
any override, every manipulator tapHold builds carries to_if_canceled equal
to the configuration's alone list (empty when alone is absent), so a
cancelled disambiguation runs the tap actions. -/
theorem C9_cancel_defaults_to_alone (opts : TapHoldOpts)
    (hc : opts.cancel = none)
    (hov : ∀ ov ∈ opts.appOverrides, ov.cancel = none) :
    ∀ m ∈ tapHold opts,
      (m.delayedAction.map DelayedAction.to_if_canceled)
        = some (opts.alone.getD []) := by
  intro m hm
  rw [tapHold_eq_parts] at hm
  rcases List.mem_append.mp hm with hm | hm
  · obtain ⟨ov, hovm, rfl⟩ := List.mem_map.mp hm
    show some (coalesce3 ov.cancel opts.cancel opts.alone) = _
    rw [hov ov hovm, hc]
    rfl
  · rcases List.mem_singleton.mp hm with rfl
    show some (coalesce3 none opts.cancel opts.alone) = _
    rw [hc]
    rfl

theorem C9_cancel_defaults_to_alone_witness :
    ((tapHold c7Opts).headI.delayedAction.map DelayedAction.to_if_canceled)
      = some (c7Opts.alone.getD []) :=
  C9_cancel_defaults_to_alone c7Opts rfl (by decide)
    (tapHold c7Opts).headI (List.mem_cons_self _ _)

/-- C10: every spacebar release runs the to_after_key_up list, which zeroes
space_mod and every sublayer variable and switches the four sticky
modifiers off; both release transitions of the model (release after hold,
and quick release with the to_if_alone list first) apply it, so no sublayer
of either persistence policy stays active once the modal key is up. -/
theorem C10_release_clears_all (layers : List SubLayerConfig) (s : KState) :
    (spaceManipulator (subVarNames layers)).to_after_key_up
      = spaceAfterKeyUpEvents (subVarNames layers)
    ∧ (∀ n ∈ layerVarNames layers,
        (applyEvents (spaceAfterKeyUpEvents (subVarNames layers)) s).vars n
          = 0)
    ∧ (∀ n ∈ layerVarNames layers,
        (applyEvents ((spaceManipulator (subVarNames layers)).to_if_alone
          ++ (spaceManipulator (subVarNames layers)).to_after_key_up) s).vars
          n = 0)
    ∧ (∀ m, m = Lshift ∨ m = Lopt ∨ m = Lcmd ∨ m = Lctrl →
        (applyEvents (spaceAfterKeyUpEvents (subVarNames layers)) s).sticky m
          = false)
    ∧ (s.spaceDown = true →
        SpaceStep layers s
          { applyEvents
              (spaceManipulator (subVarNames layers)).to_after_key_up s
            with spaceDown := false }
        ∧ SpaceStep layers s
          { applyEvents ((spaceManipulator (subVarNames layers)).to_if_alone
              ++ (spaceManipulator (subVarNames layers)).to_after_key_up) s
            with spaceDown := false }) := by
  refine ⟨rfl, ?_, ?_, ?_,
    fun h => ⟨SpaceStep.release s h, SpaceStep.releaseAlone s h⟩⟩
  · intro n hn
    exact applyEvents_vars_zero _ n
      (spaceAfterKeyUpEvents_mem _ n (List.mem_cons.mp hn))
      (fun v hv => spaceAfterKeyUpEvents_writes _ n v hv) s
  · intro n hn
    rw [applyEvents_append]
    exact applyEvents_vars_zero _ n
      (spaceAfterKeyUpEvents_mem _ n (List.mem_cons.mp hn))
      (fun v hv => spaceAfterKeyUpEvents_writes _ n v hv) _
  · intro m hm
    exact applyEvents_sticky_off _ m
      (spaceAfterKeyUpEvents_sticky_mem _ m hm)
      (fun st hst => spaceAfterKeyUpEvents_sticky _ m st hst) s

theorem C10_release_clears_all_witness :
    (applyEvents (spaceAfterKeyUpEvents (subVarNames indexSpaceLayers))
      wedgedState).vars (sublayerVarName "c") = 0
    ∧ (applyEvents (spaceAfterKeyUpEvents (subVarNames indexSpaceLayers))
        wedgedState).sticky Lcmd = false
    ∧ SpaceStep indexSpaceLayers wedgedState
        { applyEvents
            (spaceManipulator (subVarNames indexSpaceLayers)).to_after_key_up
            wedgedState
          with spaceDown := false } := by
  have h := C10_release_clears_all indexSpaceLayers wedgedState
  exact ⟨h.2.1 (sublayerVarName "c") (by decide),
    h.2.2.2.1 Lcmd (Or.inr (Or.inr (Or.inl rfl))),
    (h.2.2.2.2 rfl).1⟩
